import Mathlib

/-!
Verification development for the schema-wash pipeline
(`schemawash/utils.py`, `schemawash/filter_records.py`,
`schemawash/cleaner_functions.py`, `schemawash/lib.py`).

Records are JSON trees; Python dictionaries are modelled as ordered
association lists (`List (String × _)`), matching `dict`/`OrderedDict`
insertion-order semantics.  Fallible Python code (code that can raise
`AttributeError`, `AssertionError`, `TypeError`, `IndexError`) is
modelled with `Except PyErr`.
-/

set_option maxHeartbeats 1000000

namespace SchemaWash

/-- A JSON value as read from a JSON-lines file: scalars, arrays, and
objects (Python `dict`s, modelled as ordered association lists).
Numbers are modelled as integers; the claims under scrutiny only involve
integer-valued numbers. -/
inductive JSON where
  | null
  | boolean (b : Bool)
  | num (n : Int)
  | str (s : String)
  | arr (elems : List JSON)
  | obj (fields : List (String × JSON))

/-- A record: a top-level JSON object, i.e. a Python `dict`. -/
abbrev Obj := List (String × JSON)

/-- The Python exceptions the modelled code can raise. -/
inductive PyErr where
  | attributeError
  | assertionError
  | typeError
  | indexError
deriving DecidableEq

/-- Python `d[k]`-style lookup on an (ordered) dict: first matching key. -/
def lookupKey {α : Type} : List (String × α) → String → Option α
  | [], _ => none
  | (k', v) :: rest, k => if k' = k then some v else lookupKey rest k

/-- Python `d[k] = v` on an (ordered) dict: update the value in place if
the key is present (keeping its position), otherwise append the new pair. -/
def setField {α : Type} : List (String × α) → String → α → List (String × α)
  | [], k, v => [(k, v)]
  | (k', v') :: rest, k, v =>
      if k' = k then (k, v) :: rest else (k', v') :: setField rest k v

/-- Python `k in d`. -/
def hasKey {α : Type} (l : List (String × α)) (k : String) : Bool :=
  (lookupKey l k).isSome

/-- Python truthiness of a JSON value (`bool(x)`): `None`, `False`, `0`,
`""`, `[]` and `{}` are falsy; everything else is truthy. -/
def truthy : JSON → Bool
  | .null => false
  | .boolean b => b
  | .num n => n != 0
  | .str s => s != ""
  | .arr xs => !xs.isEmpty
  | .obj kvs => !kvs.isEmpty

/-- Whether a JSON value is a Python `dict`. -/
def isObj : JSON → Bool
  | .obj _ => true
  | _ => false

/-- Whether a JSON value is Python `None`. -/
def isNull : JSON → Bool
  | .null => true
  | _ => false

/-- Python's `int(b)` view of a boolean (`bool` is a subclass of `int`). -/
def boolAsInt (b : Bool) : Int := if b then 1 else 0

/-- Python iteration `for x in v`: lists yield their elements, strings
yield their characters (as one-character strings), dicts yield their
keys; scalars and `None` raise `TypeError`. -/
def pyIter : JSON → Except PyErr (List JSON)
  | .arr xs => .ok xs
  | .str s => .ok (s.toList.map (fun c => JSON.str c.toString))
  | .obj kvs => .ok (kvs.map (fun p => JSON.str p.1))
  | _ => .error .typeError

mutual

/-- Python equality `==` on JSON values.  Python equates booleans with
the integers `0`/`1` (`bool` subclasses `int`), compares lists
elementwise, compares dicts by length plus key-wise value equality, and
returns `False` across any other type mix (no string/number coercion). -/
def pyEq : JSON → JSON → Bool
  | .null, .null => true
  | .boolean x, .boolean y => x == y
  | .boolean x, .num n => boolAsInt x == n
  | .num n, .boolean x => n == boolAsInt x
  | .num x, .num y => x == y
  | .str x, .str y => x == y
  | .arr xs, .arr ys => xs.length == ys.length && pyEqList xs ys
  | .obj xs, .obj ys => xs.length == ys.length && pyEqObjSub xs ys
  | _, _ => false

/-- Elementwise Python `==` on two lists (used after a length check). -/
def pyEqList : List JSON → List JSON → Bool
  | [], _ => true
  | x :: xs, ys =>
    (match ys with
     | [] => false
     | y :: _ => pyEq x y) && pyEqList xs ys.tail

/-- For each key of the first dict: the key is present in the second and
the values are Python-equal (used after a length check, which makes the
one-sided traversal symmetric for duplicate-free dicts). -/
def pyEqObjSub : List (String × JSON) → List (String × JSON) → Bool
  | [], _ => true
  | (k, v) :: rest, ys =>
    (match lookupKey ys k with
     | some w => pyEq v w
     | none => false) && pyEqObjSub rest ys

end

mutual

/-- Modelled from the spec: "exact equality across JSON-native types; no
coercion" (§4.2).  Structural equality of JSON values, equating nothing
across type tags — in particular booleans are never equal to numbers.
Used to compare the spec's prescribed raw filter test with the code's
Python `==`. -/
def specExactEq : JSON → JSON → Bool
  | .null, .null => true
  | .boolean x, .boolean y => x == y
  | .num x, .num y => x == y
  | .str x, .str y => x == y
  | .arr xs, .arr ys => specExactEqList xs ys
  | .obj xs, .obj ys => specExactEqObj xs ys
  | _, _ => false

/-- Elementwise structural equality of JSON lists. -/
def specExactEqList : List JSON → List JSON → Bool
  | [], [] => true
  | x :: xs, y :: ys => specExactEq x y && specExactEqList xs ys
  | _, _ => false

/-- Pairwise structural equality of JSON objects. -/
def specExactEqObj : List (String × JSON) → List (String × JSON) → Bool
  | [], [] => true
  | (k, v) :: xs, (k', v') :: ys => k == k' && specExactEq v v' && specExactEqObj xs ys
  | _, _ => false

end

/-- The intermediate-segment walk of `target_from_path`
(`schemawash/utils.py` lines 20-27): `target = target.get(element)`
followed by the `if not target: return None, None` truthiness check, for
each element in turn.  Calling `.get` on a non-dict raises
`AttributeError`. -/
def walkPath : JSON → List String → Except PyErr (Option JSON)
  | t, [] => .ok (some t)
  | t, e :: rest =>
    match t with
    | .obj kvs =>
      let t2 := (lookupKey kvs e).getD JSON.null
      if truthy t2 then walkPath t2 rest else .ok none
    | _ => .error .attributeError

/-- `target_from_path(obj, path)` from `schemawash/utils.py`.  A string
path is first wrapped into a one-element list by the source, so the
model takes the path as a list of segments.  A one-segment path resolves
against the top-level record when the key is present and yields the
absent signal `(None, None)` (here `none`) otherwise.  A longer path
walks all segments but the last with `walkPath` and, on success, returns
the reached value together with the last segment — without checking the
last segment's presence.  An empty path list reaches `path[-1]` on an
empty list and raises `IndexError`. -/
def target_from_path (obj : Obj) (path : List String) :
    Except PyErr (Option (JSON × String)) :=
  match path with
  | [] => .error .indexError
  | [p] => if hasKey obj p then .ok (some (.obj obj, p)) else .ok none
  | _ =>
    match walkPath (.obj obj) path.dropLast with
    | .error e => .error e
    | .ok none => .ok none
    | .ok (some t) => .ok (some (t, path.getLastD ""))

/-- `filter_single_record(obj, path, value, desired_test_result)` from
`schemawash/filter_records.py`.  It resolves the path, then evaluates
`result = target.get(field)` — which raises `AttributeError` when the
resolution came back `(None, None)` or when the resolved container is
not a dict — computes the raw test (membership when `value` is a list,
Python `==` otherwise), and returns `test == desired_test_result`. -/
def filter_single_record (obj : Obj) (path : List String) (value : JSON)
    (desired_test_result : Bool) : Except PyErr Bool :=
  match target_from_path obj path with
  | .error e => .error e
  | .ok none => .error .attributeError
  | .ok (some (t, field)) =>
    match t with
    | .obj kvs =>
      let result := (lookupKey kvs field).getD JSON.null
      let test :=
        match value with
        | .arr vs => vs.any (fun v => pyEq result v)
        | _ => pyEq result value
      .ok (test == desired_test_result)
    | _ => .error .attributeError

/-- Functional write-back for the in-place mutation `target[field] = v`
performed by the cleaner functions after locating `target` with
`target_from_path`.  It follows the same intermediate-segment chain of
dict lookups that `target_from_path` walked (whenever that walk located
a dict, every intermediate it traversed was a dict, so the two traverse
the same containers) and assigns the leaf field in the located dict. -/
def writeAtPath (obj : Obj) (path : List String) (v : JSON) : Obj :=
  match path with
  | [] => obj
  | [p] => setField obj p v
  | p :: rest =>
    match lookupKey obj p with
    | some (JSON.obj inner) => setField obj p (JSON.obj (writeAtPath inner rest v))
    | _ => obj

/-- `remove_nulls_from_list_field(obj, path)` from
`schemawash/cleaner_functions.py` lines 38-42:
locate the target; `if target:` makes an absent resolution a no-op;
otherwise `value = target.get(field) or []` (so a falsy or absent leaf
becomes the empty list), and `target[field] = [x for x in value if x is
not None]` writes the null-free iteration of `value` back — note that
this assigns the leaf even when it was previously absent. -/
def remove_nulls_from_list_field (obj : Obj) (path : List String) :
    Except PyErr Obj :=
  match target_from_path obj path with
  | .error e => .error e
  | .ok none => .ok obj
  | .ok (some (t, field)) =>
    if truthy t then
      match t with
      | .obj kvs =>
        let v0 := (lookupKey kvs field).getD JSON.null
        let value := if truthy v0 then v0 else JSON.arr []
        match pyIter value with
        | .error e => .error e
        | .ok xs => .ok (writeAtPath obj path (JSON.arr (xs.filter (fun x => !isNull x))))
      | _ => .error .attributeError
    else .ok obj

/-- The dict comprehension `{k: v for k, v in zip(keys, item)}`:
`zip` truncates to the shorter operand and a repeated key keeps its
first position but takes its last value. -/
def zipToDict (keys : List String) (vals : List JSON) : Obj :=
  (keys.zip vals).foldl (fun acc p => setField acc p.1 p.2) []

/-- The per-item loop of `nested_array_to_dict`: each item must be a
list (`assert isinstance(item, list)`, raising `AssertionError`
otherwise) and is rewritten into the zipped dict. -/
def mapItemsToDicts (keys : List String) : List JSON → Except PyErr (List JSON)
  | [] => .ok []
  | JSON.arr xs :: rest =>
    match mapItemsToDicts keys rest with
    | .error e => .error e
    | .ok tail => .ok (JSON.obj (zipToDict keys xs) :: tail)
  | _ :: _ => .error .assertionError

/-- `nested_array_to_dict(obj, path, keys)` from
`schemawash/cleaner_functions.py` lines 78-88: locate the target (with
no `if target:` guard, so an absent resolution hits `None.get(field)`
and raises `AttributeError`), read `old_array = target.get(field)`,
iterate it (`for item in old_array`, raising `TypeError` when the leaf
is absent or not iterable), assert every item is a list, zip each item
with `keys` into a dict, and write the new array back. -/
def nested_array_to_dict (obj : Obj) (path : List String) (keys : List String) :
    Except PyErr Obj :=
  match target_from_path obj path with
  | .error e => .error e
  | .ok none => .error .attributeError
  | .ok (some (t, field)) =>
    match t with
    | .obj kvs =>
      let old_array := (lookupKey kvs field).getD JSON.null
      match pyIter old_array with
      | .error e => .error e
      | .ok items =>
        match mapItemsToDicts keys items with
        | .error e => .error e
        | .ok newItems => .ok (writeAtPath obj path (JSON.arr newItems))
    | _ => .error .attributeError

/-- The cleaner functions actually defined (not commented out) at the
top level of `schemawash/cleaner_functions.py`. -/
inductive CleanerFunction where
  | remove_nulls_from_list_field
  | nested_array_to_dict
deriving DecidableEq

/-- `getattr(cleaner_functions, name)` as used by `clean_object`
(`schemawash/lib.py` line 146), restricted to the cleaner functions the
module defines: `remove_nulls_from_list_field` and
`nested_array_to_dict` are the only cleaner functions present in the
module source — every other cleaner body there is commented out — so
any other configured name fails the attribute lookup. -/
def cleaner_functions_getattr (fname : String) : Option CleanerFunction :=
  if fname = "remove_nulls_from_list_field" then
    some .remove_nulls_from_list_field
  else if fname = "nested_array_to_dict" then
    some .nested_array_to_dict
  else
    none

/-- One entry of the config's `cleaners` list: a function name plus its
`params` mapping, which for the available cleaners holds `path` and,
for `nested_array_to_dict`, `keys`. -/
structure CleanerSpec where
  function : String
  path : List String
  keys : Option (List String)

/-- Dispatch of a located cleaner function on a record with its params
(`cleaner_function(obj, **params)`). -/
def applyCleanerFunction : CleanerFunction → Obj → CleanerSpec → Except PyErr Obj
  | .remove_nulls_from_list_field, o, c => remove_nulls_from_list_field o c.path
  | .nested_array_to_dict, o, c => nested_array_to_dict o c.path (c.keys.getD [])

/-- `clean_object(obj, cleaners)` from `schemawash/lib.py` lines
142-148: run the configured cleaner functions over the record in order;
an unknown function name raises `AttributeError` at `getattr`, and any
error raised by a cleaner propagates. -/
def clean_object (obj : Obj) (cleaners : List CleanerSpec) : Except PyErr Obj :=
  match cleaners with
  | [] => .ok obj
  | c :: rest =>
    match cleaner_functions_getattr c.function with
    | none => .error .attributeError
    | some f =>
      match applyCleanerFunction f obj c with
      | .error e => .error e
      | .ok obj2 => clean_object obj2 rest

/-- One entry of the config's `filter_records` list.  A missing
`desired_test_result` key means the call site's
`filter.get('desired_test_result', True)` supplies `True`. -/
structure FilterSpec where
  path : List String
  value : JSON
  desired_test_result : Option Bool

/-- Evaluation of one configured filter on a record, as called from
`transform` (`schemawash/lib.py` lines 179-184). -/
def evalFilterSpec (obj : Obj) (f : FilterSpec) : Except PyErr Bool :=
  filter_single_record obj f.path f.value (f.desired_test_result.getD true)

/-- Whether a record passes one filter (false also when the filter
raises; only used to state results about non-raising runs). -/
def filterPasses (obj : Obj) (f : FilterSpec) : Bool :=
  match evalFilterSpec obj f with
  | .ok b => b
  | .error _ => false

/-- Whether a filter evaluation completed without raising. -/
def filterEvalOk (obj : Obj) (f : FilterSpec) : Bool :=
  match evalFilterSpec obj f with
  | .ok _ => true
  | .error _ => false

/-- The list comprehension
`[filter_single_record(...) for filter in filters]` of `transform`:
evaluate every filter on the record, left to right, propagating the
first raised error. -/
def evalFilters (obj : Obj) : List FilterSpec → Except PyErr (List Bool)
  | [] => .ok []
  | f :: rest =>
    match evalFilterSpec obj f with
    | .error e => .error e
    | .ok b =>
      match evalFilters obj rest with
      | .error e => .error e
      | .ok bs => .ok (b :: bs)

/-- The record loop of `transform` (`schemawash/lib.py` lines 175-199),
modelled at the level of the list of records read from the input file.
`filters`/`cleaners` are `config.get(...)` results (`none` for a
missing key), and both guards are Python-truthy (`if filters:` /
`if cleaners:`), so an empty configured list disables the stage.
A discarded record is skipped entirely: no cleaning, no write, no
schema update.  A kept record is cleaned, written (appended to the
returned output list), counted, and folded into the schema state by
`upd` — which models `deduce_schema_for_record` wrapped in the
`try`/`except Exception: pass` of lines 196-199, so a `none` from `upd`
leaves the schema state unchanged.  The returned triple is
(records written, final schema state, `lines`). -/
def transform {S : Type} (upd : S → Obj → Option S)
    (filters : Option (List FilterSpec)) (cleaners : Option (List CleanerSpec))
    (s : S) : List Obj → Except PyErr (List Obj × S × Nat)
  | [] => .ok ([], s, 0)
  | obj :: rest =>
    let discardTest : Except PyErr Bool :=
      match filters with
      | none => .ok false
      | some fs =>
        if fs.isEmpty then .ok false
        else
          match evalFilters obj fs with
          | .error e => .error e
          | .ok results => .ok (results.any (fun b => !b))
    match discardTest with
    | .error e => .error e
    | .ok true => transform upd filters cleaners s rest
    | .ok false =>
      let cleaned : Except PyErr Obj :=
        match cleaners with
        | none => .ok obj
        | some cs => if cs.isEmpty then .ok obj else clean_object obj cs
      match cleaned with
      | .error e => .error e
      | .ok obj2 =>
        let s2 := (upd s obj2).getD s
        match transform upd filters cleaners s2 rest with
        | .error e => .error e
        | .ok (written, sOut, lines) => .ok (obj2 :: written, sOut, lines + 1)

section Merge

variable {E : Type}

/-- The field-by-field loop of `merge_schema_maps`
(`schemawash/lib.py` lines 72-79), parametrised by the external
`SchemaGenerator.merge_schema_entry` primitive `me`, which may raise
(`none`).  The Python loop mutates `old` in place; the model returns
the state of `old` at the moment the call finishes or the exception
escapes, together with a success flag: a field of `to_add` absent from
`old` is appended, a shared field is reconciled with `me`, and a `none`
from `me` aborts the loop with the fields processed so far already
written into `old`. -/
def mergeFieldsLoop (me : E → E → Option E) :
    List (String × E) → List (String × E) → List (String × E) × Bool
  | [], old => (old, true)
  | (k, v) :: rest, old =>
    match lookupKey old k with
    | some w =>
      match me w v with
      | some m => mergeFieldsLoop me rest (setField old k m)
      | none => (old, false)
    | none => mergeFieldsLoop me rest (old ++ [(k, v)])

/-- `merge_schema_maps(to_add, old)` from `schemawash/lib.py` lines
60-84: if `old` is empty the result is a copy of `to_add`; otherwise
the fields of `to_add` are folded into `old` in place.  The first
component is the state of `old` after the call (also when `me` raised
part-way), the second is the success flag. -/
def merge_schema_maps (me : E → E → Option E)
    (to_add old : List (String × E)) : List (String × E) × Bool :=
  if old.isEmpty then (to_add, true) else mergeFieldsLoop me to_add old

/-- The orchestrator's per-result merge step (`schemawash/lib.py` lines
263-266): `merged_schema_map = merge_schema_maps(...)` inside
`try`/`except`.  On success the variable is rebound to the returned
map; on an exception the `except` swallows the error and the variable
keeps referring to the same (in-place mutated) `old` object — in both
cases the next global map is the first component of the model's
result. -/
def orchestratorMergeStep (me : E → E → Option E)
    (schemaMap globalMap : List (String × E)) : List (String × E) :=
  (merge_schema_maps me schemaMap globalMap).1

/-- `merge_schema_maps` specialised to a total entry-merge primitive
(the success path: `me` never raises). -/
def mergeSchemaMapsT (me : E → E → E) (to_add old : List (String × E)) :
    List (String × E) :=
  (merge_schema_maps (fun a b => some (me a b)) to_add old).1

end Merge

/-- Python `str.replace(old, new)` on character lists, for a non-empty
pattern: replace every non-overlapping occurrence left to right.  The
fuel is the length of the scanned list (each step consumes at least one
character), keeping the definition structural. -/
def pyReplaceAux (pat new : List Char) : Nat → List Char → List Char
  | _, [] => []
  | 0, s => s
  | Nat.succ fuel, c :: rest =>
    if pat.isPrefixOf (c :: rest) then
      new ++ pyReplaceAux pat new fuel (rest.drop (pat.length - 1))
    else
      c :: pyReplaceAux pat new fuel rest

/-- Python `s.replace(old, new)`.  For an empty pattern Python inserts
`new` before every character and at the end. -/
def pyReplace (s pat new : String) : String :=
  if pat.data.isEmpty then
    ⟨new.data ++ s.data.foldr (fun c acc => c :: new.data ++ acc) []⟩
  else
    ⟨pyReplaceAux pat.data new.data s.data.length s.data⟩

/-- The output-path computation of `generate_schema_for_dataset`
(`schemawash/lib.py` lines 246-248):
`str(output_folder / Path(input_path).relative_to(input_folder))
.replace(file_suffix, ".jsonl")`, with the `pathlib` join modelled as
string concatenation with `/` and the path already split into the
output folder and the input path's part relative to the input folder.
Note `str.replace` rewrites every occurrence of the suffix anywhere in
the joined path, not only a trailing one. -/
def computeOutputPath (outputFolder relPath suffix : String) : String :=
  pyReplace (outputFolder ++ "/" ++ relPath) suffix ".jsonl"

/-- All non-empty tail segments `t` of `pre` satisfy
`¬ pat.isPrefixOf (t ++ pat)`: scanning `pre ++ pat` left to right, no
occurrence of `pat` starts before position `pre.length`.  This is the
"the suffix occurs in the joined path only as its trailing suffix"
side-condition. -/
def earlyHitFree : List Char → List Char → Bool
  | [], _ => true
  | c :: rest, pat => !pat.isPrefixOf ((c :: rest) ++ pat) && earlyHitFree rest pat

/-!  ### Association-list lemmas  -/

section AssocLemmas

variable {α : Type}

theorem lookupKey_setField_self (l : List (String × α)) (k : String) (v : α) :
    lookupKey (setField l k v) k = some v := by
  induction l with
  | nil => simp [setField, lookupKey]
  | cons p rest ih =>
    by_cases h : p.1 = k
    · obtain ⟨k', v'⟩ := p
      simp only at h
      simp [setField, h, lookupKey]
    · obtain ⟨k', v'⟩ := p
      simp only at h
      simp [setField, h, lookupKey, ih]

theorem lookupKey_setField_ne (l : List (String × α)) (k k' : String) (v : α)
    (h : k' ≠ k) : lookupKey (setField l k v) k' = lookupKey l k' := by
  induction l with
  | nil => simp [setField, lookupKey, Ne.symm h]
  | cons p rest ih =>
    obtain ⟨k0, v0⟩ := p
    by_cases h0 : k0 = k
    · subst h0
      simp [setField, lookupKey, Ne.symm h]
    · simp [setField, h0, lookupKey, ih]

theorem lookupKey_append (l l' : List (String × α)) (k : String) :
    lookupKey (l ++ l') k =
      match lookupKey l k with
      | some v => some v
      | none => lookupKey l' k := by
  induction l with
  | nil => simp [lookupKey]
  | cons p rest ih =>
    obtain ⟨k0, v0⟩ := p
    by_cases h0 : k0 = k <;> simp [lookupKey, h0, ih]

theorem lookupKey_eq_none_of_not_mem_keys (l : List (String × α)) (k : String)
    (h : k ∉ l.map Prod.fst) : lookupKey l k = none := by
  induction l with
  | nil => rfl
  | cons p rest ih =>
    obtain ⟨k0, v0⟩ := p
    simp only [List.map_cons, List.mem_cons] at h
    push_neg at h
    simp [lookupKey, Ne.symm h.1, ih h.2]

theorem hasKey_setField (l : List (String × α)) (k k' : String) (v : α) :
    hasKey (setField l k v) k' = (k' == k || hasKey l k') := by
  by_cases h : k' = k
  · subst h; simp [hasKey, lookupKey_setField_self]
  · simp [hasKey, lookupKey_setField_ne l k k' v h, h]

theorem setField_of_lookup_none (l : List (String × α)) (k : String) (v : α)
    (h : lookupKey l k = none) : setField l k v = l ++ [(k, v)] := by
  induction l with
  | nil => simp [setField]
  | cons p rest ih =>
    obtain ⟨k0, v0⟩ := p
    by_cases h0 : k0 = k
    · simp [lookupKey, h0] at h
    · simp only [lookupKey, h0, if_false] at h
      simp [setField, h0, ih h]

theorem length_setField_of_lookup_none (l : List (String × α)) (k : String)
    (v : α) (h : lookupKey l k = none) :
    (setField l k v).length = l.length + 1 := by
  rw [setField_of_lookup_none l k v h]
  simp

end AssocLemmas

/-!  ### Lemmas about path resolution  -/

/-- A successful non-trivial walk ends at a truthy value. -/
theorem walkPath_truthy (es : List String) (t0 t : JSON) (hne : es ≠ [])
    (h : walkPath t0 es = .ok (some t)) : truthy t = true := by
  induction es generalizing t0 with
  | nil => exact absurd rfl hne
  | cons e rest ih =>
    match t0 with
    | .null | .boolean _ | .num _ | .str _ | .arr _ =>
      simp [walkPath] at h
    | .obj kvs =>
      simp only [walkPath] at h
      by_cases htr : truthy ((lookupKey kvs e).getD JSON.null) = true
      · rw [if_pos htr] at h
        match rest, h with
        | [], h => simp only [walkPath, Except.ok.injEq, Option.some.injEq] at h; rw [← h]; exact htr
        | r :: rs, h => exact ih _ (by simp) h
      · rw [if_neg htr] at h
        simp at h

/-- The container returned by a successful `target_from_path` resolution
is truthy (so `remove_nulls_from_list_field`'s `if target:` guard is
always taken on the found branch). -/
theorem target_from_path_truthy (obj : Obj) (path : List String) (t : JSON)
    (field : String) (h : target_from_path obj path = .ok (some (t, field))) :
    truthy t = true := by
  match path with
  | [] => simp [target_from_path] at h
  | [p] =>
    by_cases hk : hasKey obj p = true
    · simp only [target_from_path, hk, if_true, Except.ok.injEq, Option.some.injEq,
        Prod.mk.injEq] at h
      obtain ⟨h1, _⟩ := h
      subst h1
      cases obj with
      | nil => simp [hasKey, lookupKey] at hk
      | cons q rest => simp [truthy]
    · simp [target_from_path, hk] at h
  | p :: q :: rest =>
    simp only [target_from_path] at h
    cases hw : walkPath (.obj obj) ((p :: q :: rest).dropLast) with
    | error e => rw [hw] at h; simp at h
    | ok o =>
      cases o with
      | none => rw [hw] at h; simp at h
      | some t' =>
        rw [hw] at h
        simp only [Except.ok.injEq, Option.some.injEq, Prod.mk.injEq] at h
        obtain ⟨h1, _⟩ := h
        subst h1
        exact walkPath_truthy _ _ _ (by simp [List.dropLast]) hw

/-!  ### Claim C8  -/

/-- Claim C8: `nested_array_to_dict` with keys `["lat","lon"]` rewrites a
field holding `[[1,2],[3,4]]` to `[{"lat":1,"lon":2},{"lat":3,"lon":4}]`,
and on a field holding `[[1,2],5]` it raises (the assertion on the
non-sequence inner element fails and propagates). -/
theorem c8_nested_array_scenarios :
    nested_array_to_dict
        [("f", JSON.arr [JSON.arr [JSON.num 1, JSON.num 2],
                         JSON.arr [JSON.num 3, JSON.num 4]])] ["f"] ["lat", "lon"]
      = .ok [("f", JSON.arr [JSON.obj [("lat", JSON.num 1), ("lon", JSON.num 2)],
                             JSON.obj [("lat", JSON.num 3), ("lon", JSON.num 4)]])]
  ∧ nested_array_to_dict
        [("f", JSON.arr [JSON.arr [JSON.num 1, JSON.num 2], JSON.num 5])] ["f"] ["lat", "lon"]
      = .error .assertionError :=
  ⟨rfl, rfl⟩

/-!  ### Counterexamples -/

/-- Claim C1 fails as stated: on the record `{}` and a `FilterSpec` whose
path `["missing"]` does not resolve, `filter_single_record` does not
evaluate the test against null — `target_from_path` returns
`(None, None)` and `result = target.get(field)` raises
`AttributeError`. -/
theorem c1_counterexample :
    filter_single_record [] ["missing"] JSON.null true = .error .attributeError :=
  rfl

/-- Claim C2 fails as stated: `remove_nulls_from_list_field` on the
record `{"a": {"x": 1}}` with path `["a", "b"]` (container present, leaf
absent) does not leave the record unchanged — it inserts `"b": []` into
the inner dict — and `nested_array_to_dict` on a record whose path is
absent is not a silent no-op: it raises `AttributeError`. -/
theorem c2_counterexample :
    remove_nulls_from_list_field [("a", JSON.obj [("x", JSON.num 1)])] ["a", "b"]
      = .ok [("a", JSON.obj [("x", JSON.num 1), ("b", JSON.arr [])])]
  ∧ ([("a", JSON.obj [("x", JSON.num 1), ("b", JSON.arr [])])] : Obj)
      ≠ [("a", JSON.obj [("x", JSON.num 1)])]
  ∧ nested_array_to_dict [] ["missing"] ["k"] = .error .attributeError :=
  ⟨rfl, by simp, rfl⟩

/-- A concrete fallible entry-merge primitive: merging an entry `0` with
anything raises (returns `none`). -/
def entryMergeEx (w v : Int) : Option Int :=
  if w == 0 then none else some (w + v)

/-- Claim C3 fails as stated: with global map `{"a": 0}` and incoming
map `{"b": 5, "a": 1}`, the entry merge for `"a"` raises after the new
field `"b"` has already been inserted into the global map in place, so
the caught-and-continued merge step leaves the global map as
`{"a": 0, "b": 5}`, not its prior value `{"a": 0}`. -/
theorem c3_counterexample :
    orchestratorMergeStep entryMergeEx [("b", 5), ("a", 1)] [("a", 0)]
      = [("a", 0), ("b", 5)]
  ∧ (merge_schema_maps entryMergeEx [("b", 5), ("a", 1)] [("a", 0)]).2 = false
  ∧ [("a", (0 : Int)), ("b", 5)] ≠ [("a", 0)] :=
  ⟨rfl, rfl, by decide⟩

/-- Claim C5 fails as stated: the registry dispatched by `clean_object`
does not provide a blank-string-to-null transform (or the other four
missing kinds) — the function `clean_empty_string_to_none` is commented
out in `cleaner_functions.py`, so `getattr` fails and a `CleanerSpec`
naming it raises `AttributeError` instead of nulling the blank
string. -/
theorem c5_counterexample :
    cleaner_functions_getattr "clean_empty_string_to_none" = none
  ∧ clean_object [("v", JSON.str " ")]
      [⟨"clean_empty_string_to_none", ["v"], none⟩] = .error .attributeError :=
  ⟨rfl, rfl⟩

/-- Claim C6 fails as stated: a truthy non-mapping intermediate does not
give the absent signal.  On `{"a": 5}` with path `["a", "b"]` the walk
returns `(5, "b")` (a found result with a non-dict container), and with
path `["a", "b", "c"]` it raises `AttributeError` (calling `.get` on
`5`). -/
theorem c6_counterexample :
    target_from_path [("a", JSON.num 5)] ["a", "b"] = .ok (some (JSON.num 5, "b"))
  ∧ (.ok (some (JSON.num 5, "b")) : Except PyErr (Option (JSON × String))) ≠ .ok none
  ∧ target_from_path [("a", JSON.num 5)] ["a", "b", "c"] = .error .attributeError :=
  ⟨rfl, by simp, rfl⟩

/-- Claim C7 fails as stated: the scalar raw test is Python `==`, not
exact no-coercion equality across JSON-native types.  On the record
`{"k": true}` and value `1`, the code's raw test succeeds (Python
`True == 1`), although exact equality of the boolean `true` and the
number `1` is false. -/
theorem c7_counterexample :
    filter_single_record [("k", JSON.boolean true)] ["k"] (JSON.num 1) true = .ok true
  ∧ specExactEq (JSON.boolean true) (JSON.num 1) = false :=
  ⟨rfl, rfl⟩

/-- Claim C9 fails as stated: `str.replace` rewrites every occurrence of
the configured suffix in the joined output path, not only the trailing
one.  For an input file `b.jsonl.gz` inside a directory named
`a.jsonl.gz`, the directory component is altered as well: the code
produces `/out/a.jsonl/b.jsonl` instead of the claimed
`/out/a.jsonl.gz/b.jsonl`. -/
theorem c9_counterexample :
    computeOutputPath "/out" "a.jsonl.gz/b.jsonl.gz" ".jsonl.gz"
      = "/out/a.jsonl/b.jsonl"
  ∧ "/out/a.jsonl/b.jsonl" ≠ "/out/a.jsonl.gz/b.jsonl" :=
  ⟨rfl, by decide⟩

/-- Claim C10 fails as stated: with a duplicated key list `["a", "a"]`
and inner list `[1, 2, 3]` (lengths differ), the produced member is
`{"a": 2}` with one entry, not `min 2 3 = 2` entries — the dict
comprehension collapses duplicate keys, keeping the last value. -/
theorem c10_counterexample :
    nested_array_to_dict
        [("f", JSON.arr [JSON.arr [JSON.num 1, JSON.num 2, JSON.num 3]])] ["f"] ["a", "a"]
      = .ok [("f", JSON.arr [JSON.obj [("a", JSON.num 2)]])]
  ∧ ([("a", JSON.num 2)] : Obj).length
      ≠ min (["a", "a"].length) ([JSON.num 1, JSON.num 2, JSON.num 3].length) :=
  ⟨rfl, by decide⟩

/-!  ### Amended claims  -/

/-- Claim C1 (amended): when the locator returns the absent signal,
`filter_single_record` raises `AttributeError` (it calls `.get` on
`None`) rather than testing against null.  The treat-as-null behaviour
applies when the container resolves to a dict: then `.get` yields `None`
for an absent leaf, and the raw test (membership for a list-valued
`value`, Python equality otherwise) is computed on the resolved-or-null
value and compared with `desired_test_result`. -/
theorem c1_amended_filter_absent :
    (∀ (obj : Obj) (path : List String) (value : JSON) (d : Bool),
        target_from_path obj path = .ok none →
        filter_single_record obj path value d = .error .attributeError)
  ∧ (∀ (obj : Obj) (path : List String) (kvs : Obj) (field : String)
        (value : JSON) (d : Bool),
        target_from_path obj path = .ok (some (JSON.obj kvs, field)) →
        filter_single_record obj path value d =
          .ok ((match value with
                | JSON.arr vs =>
                    vs.any (fun v => pyEq ((lookupKey kvs field).getD JSON.null) v)
                | _ => pyEq ((lookupKey kvs field).getD JSON.null) value) == d)) := by
  constructor
  · intro obj path value d h
    simp [filter_single_record, h]
  · intro obj path kvs field value d h
    simp [filter_single_record, h]

/-- Witness for the amended C1: on `{}` with path `["m"]` the filter
raises, and on `{"a": {"x": 1}}` with path `["a", "b"]` (leaf absent)
the test against `value = null` with the default desired result is
`null == null`, i.e. the record passes. -/
theorem c1_amended_filter_absent_witness :
    filter_single_record [] ["m"] JSON.null true = .error .attributeError
  ∧ filter_single_record [("a", JSON.obj [("x", JSON.num 1)])] ["a", "b"]
      JSON.null true = .ok true :=
  ⟨c1_amended_filter_absent.1 [] ["m"] JSON.null true rfl,
   c1_amended_filter_absent.2 [("a", JSON.obj [("x", JSON.num 1)])] ["a", "b"]
     [("x", JSON.num 1)] "b" JSON.null true rfl⟩

/-- Claim C2 (amended): `remove_nulls_from_list_field` is a silent no-op
when its path is absent, but when the container exists and the leaf
field is absent it does **not** leave the record unchanged: it writes
the empty list into the leaf.  `nested_array_to_dict` on a record whose
path is absent is not a no-op: it raises `AttributeError`. -/
theorem c2_amended_cleaner_noop :
    (∀ (obj : Obj) (path : List String),
        target_from_path obj path = .ok none →
        remove_nulls_from_list_field obj path = .ok obj)
  ∧ (∀ (obj : Obj) (path keys : List String),
        target_from_path obj path = .ok none →
        nested_array_to_dict obj path keys = .error .attributeError)
  ∧ (∀ (obj : Obj) (path : List String) (kvs : Obj) (field : String),
        target_from_path obj path = .ok (some (JSON.obj kvs, field)) →
        lookupKey kvs field = none →
        remove_nulls_from_list_field obj path =
          .ok (writeAtPath obj path (JSON.arr []))) := by
  refine ⟨?_, ?_, ?_⟩
  · intro obj path h
    simp [remove_nulls_from_list_field, h]
  · intro obj path keys h
    simp [nested_array_to_dict, h]
  · intro obj path kvs field h hleaf
    have ht := target_from_path_truthy obj path _ _ h
    simp only [remove_nulls_from_list_field, h, ht, hleaf]
    simp [truthy, pyIter]

/-- Witness for the amended C2: the no-op cases on `{}`, and the
leaf-insertion case on `{"a": {"x": 1}}` with path `["a", "b"]`. -/
theorem c2_amended_cleaner_noop_witness :
    remove_nulls_from_list_field [] ["m"] = .ok []
  ∧ nested_array_to_dict [] ["m"] ["k"] = .error .attributeError
  ∧ remove_nulls_from_list_field [("a", JSON.obj [("x", JSON.num 1)])] ["a", "b"]
      = .ok [("a", JSON.obj [("x", JSON.num 1), ("b", JSON.arr [])])] :=
  ⟨c2_amended_cleaner_noop.1 [] ["m"] rfl,
   c2_amended_cleaner_noop.2.1 [] ["m"] ["k"] rfl,
   c2_amended_cleaner_noop.2.2 [("a", JSON.obj [("x", JSON.num 1)])] ["a", "b"]
     [("x", JSON.num 1)] "b" rfl rfl⟩

/-- Claim C5 (amended): the registry dispatched by `clean_object`
provides exactly two transform kinds — `remove_nulls_from_list_field`
(drop-null-members) and `nested_array_to_dict` (nested-array-to-object).
Every other name, including a blank-string-to-null cleaner, is not an
attribute of the module, so a `CleanerSpec` naming it raises
`AttributeError` at dispatch. -/
theorem c5_amended_registry :
    cleaner_functions_getattr "remove_nulls_from_list_field"
        = some .remove_nulls_from_list_field
  ∧ cleaner_functions_getattr "nested_array_to_dict" = some .nested_array_to_dict
  ∧ (∀ n : String,
        n ≠ "remove_nulls_from_list_field" → n ≠ "nested_array_to_dict" →
        cleaner_functions_getattr n = none)
  ∧ (∀ (obj : Obj) (c : CleanerSpec) (rest : List CleanerSpec),
        cleaner_functions_getattr c.function = none →
        clean_object obj (c :: rest) = .error .attributeError) := by
  refine ⟨rfl, rfl, ?_, ?_⟩
  · intro n h1 h2
    simp [cleaner_functions_getattr, h1, h2]
  · intro obj c rest h
    simp [clean_object, h]

/-- Witness for the amended C5: the two live cleaners resolve, a
commented-out cleaner name does not, and dispatching a missing name
raises. -/
theorem c5_amended_registry_witness :
    cleaner_functions_getattr "remove_nulls_from_list_field"
        = some .remove_nulls_from_list_field
  ∧ cleaner_functions_getattr "nested_array_to_dict" = some .nested_array_to_dict
  ∧ cleaner_functions_getattr "normalize_to_string_or_none" = none
  ∧ clean_object [] [⟨"transform_geo_locations", ["g"], none⟩]
      = .error .attributeError :=
  ⟨c5_amended_registry.1, c5_amended_registry.2.1,
   c5_amended_registry.2.2.1 "normalize_to_string_or_none" (by decide) (by decide),
   c5_amended_registry.2.2.2 [] ⟨"transform_geo_locations", ["g"], none⟩ [] rfl⟩

/-- Claim C6 (amended): single-segment paths resolve against the
top-level record if the key is present, else absent.  Multi-segment
paths walk all segments but the last and never check the last segment's
presence; an intermediate that is missing or falsy (null, empty or
otherwise Python-falsy) yields the absent signal — but a truthy
non-mapping intermediate is **returned as the container** when it is the
final intermediate, and makes the walk raise `AttributeError` when
another intermediate segment follows it. -/
theorem c6_amended_locator :
    (∀ (obj : Obj) (p : String), hasKey obj p = true →
        target_from_path obj [p] = .ok (some (JSON.obj obj, p)))
  ∧ (∀ (obj : Obj) (p : String), hasKey obj p = false →
        target_from_path obj [p] = .ok none)
  ∧ (∀ (obj : Obj) (p q : String),
        truthy ((lookupKey obj p).getD JSON.null) = false →
        target_from_path obj [p, q] = .ok none)
  ∧ (∀ (obj : Obj) (p q : String) (v : JSON),
        lookupKey obj p = some v → truthy v = true →
        target_from_path obj [p, q] = .ok (some (v, q)))
  ∧ (∀ (obj : Obj) (p q r : String) (rest : List String) (v : JSON),
        lookupKey obj p = some v → truthy v = true → isObj v = false →
        target_from_path obj (p :: q :: r :: rest) = .error .attributeError) := by
  refine ⟨?_, ?_, ?_, ?_, ?_⟩
  · intro obj p h
    simp [target_from_path, h]
  · intro obj p h
    simp [target_from_path, h]
  · intro obj p q h
    simp [target_from_path, walkPath, h]
  · intro obj p q v h1 h2
    simp [target_from_path, walkPath, h1, h2, List.getLastD]
  · intro obj p q r rest v h1 h2 h3
    match v, h3 with
    | .null, _ => simp [truthy] at h2
    | .boolean b, _ => simp [target_from_path, walkPath, h1, h2]
    | .num n, _ => simp [target_from_path, walkPath, h1, h2]
    | .str s, _ => simp [target_from_path, walkPath, h1, h2]
    | .arr xs, _ => simp [target_from_path, walkPath, h1, h2]
    | .obj kvs, h3 => exact absurd h3 (by simp [isObj])

/-- Witness for the amended C6: the five cases on concrete records. -/
theorem c6_amended_locator_witness :
    target_from_path [("a", JSON.num 1)] ["a"]
        = .ok (some (JSON.obj [("a", JSON.num 1)], "a"))
  ∧ target_from_path [] ["a"] = .ok none
  ∧ target_from_path [("a", JSON.obj [])] ["a", "b"] = .ok none
  ∧ target_from_path [("a", JSON.num 5)] ["a", "b"] = .ok (some (JSON.num 5, "b"))
  ∧ target_from_path [("a", JSON.num 5)] ["a", "b", "c"] = .error .attributeError :=
  ⟨c6_amended_locator.1 [("a", JSON.num 1)] "a" rfl,
   c6_amended_locator.2.1 [] "a" rfl,
   c6_amended_locator.2.2.1 [("a", JSON.obj [])] "a" "b" rfl,
   c6_amended_locator.2.2.2.1 [("a", JSON.num 5)] "a" "b" (JSON.num 5) rfl rfl,
   c6_amended_locator.2.2.2.2 [("a", JSON.num 5)] "a" "b" "c" [] (JSON.num 5)
     rfl rfl rfl⟩

/-- `hasKey` is false exactly when the lookup misses. -/
theorem hasKey_eq_false_iff {α : Type} (l : List (String × α)) (k : String) :
    hasKey l k = false ↔ lookupKey l k = none := by
  cases h : lookupKey l k <;> simp [hasKey, h]

/-- Folding `setField` over zipped pairs with keys disjoint from the
accumulator and mutually distinct grows the length by the number of
pairs. -/
theorem foldl_setField_length (ks : List String) (vs : List JSON) (acc : Obj)
    (hdisj : ∀ k ∈ ks, hasKey acc k = false) (hnd : ks.Nodup) :
    ((ks.zip vs).foldl (fun a p => setField a p.1 p.2) acc).length
      = acc.length + min ks.length vs.length := by
  induction ks generalizing vs acc with
  | nil => simp
  | cons k ks ih =>
    cases vs with
    | nil => simp
    | cons v vs =>
      simp only [List.zip_cons_cons, List.foldl_cons]
      have hk : lookupKey acc k = none :=
        (hasKey_eq_false_iff acc k).mp (hdisj k (by simp))
      have hnotmem : k ∉ ks := by
        simpa using (List.nodup_cons.mp hnd).1
      have hdisj' : ∀ k' ∈ ks, hasKey (setField acc k v) k' = false := by
        intro k' hk'
        rw [hasKey_setField]
        have hne : k' ≠ k := fun hh => hnotmem (hh ▸ hk')
        simp [hne, hdisj k' (by simp [hk'])]
      rw [ih vs (setField acc k v) hdisj' (List.nodup_cons.mp hnd).2,
        length_setField_of_lookup_none acc k v hk]
      simp [Nat.succ_min_succ]
      omega

/-- The length of the dict built by the comprehension
`{k: v for k, v in zip(keys, item)}` is `min` of the lengths when the
keys are pairwise distinct. -/
theorem zipToDict_length (ks : List String) (vs : List JSON) (hnd : ks.Nodup) :
    (zipToDict ks vs).length = min ks.length vs.length := by
  have h := foldl_setField_length ks vs [] (fun k _ => rfl) hnd
  simpa [zipToDict] using h

/-- `mapItemsToDicts` on a list of inner lists raises nothing and zips
each inner list with the keys. -/
theorem mapItemsToDicts_map_arr (ks : List String) (ls : List (List JSON)) :
    mapItemsToDicts ks (ls.map JSON.arr)
      = .ok (ls.map (fun l => JSON.obj (zipToDict ks l))) := by
  induction ls with
  | nil => rfl
  | cons l ls ih => simp [mapItemsToDicts, ih]

/-- Claim C10 (amended): on a field holding a list of lists,
`nested_array_to_dict` raises no error even when inner-list lengths
differ from the key count: each member is zipped positionally with the
keys, truncating to the shorter side — and, **provided the keys are
pairwise distinct**, each produced mapping has exactly
`min (len keys) (len inner)` entries.  (With duplicated keys the dict
comprehension collapses entries, keeping the last value, as the
counterexample shows.) -/
theorem c10_amended_zip_truncation (ks : List String) (ls : List (List JSON))
    (hnd : ks.Nodup) :
    nested_array_to_dict [("f", JSON.arr (ls.map JSON.arr))] ["f"] ks
        = .ok [("f", JSON.arr (ls.map (fun l => JSON.obj (zipToDict ks l))))]
  ∧ ∀ l ∈ ls, (zipToDict ks l).length = min ks.length l.length := by
  constructor
  · simp [nested_array_to_dict, target_from_path, hasKey, lookupKey, pyIter,
      mapItemsToDicts_map_arr, writeAtPath, setField]
  · intro l _
    exact zipToDict_length ks l hnd

/-- Witness for the amended C10: keys `["a","b"]` against inner lists
`[1]` (too short) and `[1,2,3]` (too long). -/
theorem c10_amended_zip_truncation_witness :
    nested_array_to_dict
        [("f", JSON.arr [JSON.arr [JSON.num 1],
                         JSON.arr [JSON.num 1, JSON.num 2, JSON.num 3]])] ["f"] ["a", "b"]
      = .ok [("f", JSON.arr [JSON.obj [("a", JSON.num 1)],
                             JSON.obj [("a", JSON.num 1), ("b", JSON.num 2)]])]
  ∧ (zipToDict ["a", "b"] [JSON.num 1]).length = min 2 1 :=
  ⟨(c10_amended_zip_truncation ["a", "b"] [[JSON.num 1], [JSON.num 1, JSON.num 2, JSON.num 3]]
      (by decide)).1,
   (c10_amended_zip_truncation ["a", "b"] [[JSON.num 1], [JSON.num 1, JSON.num 2, JSON.num 3]]
      (by decide)).2 [JSON.num 1] (by simp)⟩

/-- `hasKey` over an append. -/
theorem hasKey_append {α : Type} (l l' : List (String × α)) (k : String) :
    hasKey (l ++ l') k = (hasKey l k || hasKey l' k) := by
  rw [hasKey, lookupKey_append]
  cases h : lookupKey l k <;> simp [hasKey, h]

/-- Keys present in the global map survive the merge loop, whether or
not the loop completes. -/
theorem mergeFieldsLoop_hasKey_mono {E : Type} (me : E → E → Option E)
    (toAdd old : List (String × E)) (k : String) (h : hasKey old k = true) :
    hasKey (mergeFieldsLoop me toAdd old).1 k = true := by
  induction toAdd generalizing old with
  | nil => simpa [mergeFieldsLoop] using h
  | cons p rest ih =>
    obtain ⟨k0, v0⟩ := p
    simp only [mergeFieldsLoop]
    cases hl : lookupKey old k0 with
    | some w =>
      dsimp only
      cases hm : me w v0 with
      | some m =>
        dsimp only
        exact ih (setField old k0 m) (by rw [hasKey_setField]; simp [h])
      | none =>
        dsimp only
        exact h
    | none =>
      dsimp only
      exact ih (old ++ [(k0, v0)]) (by rw [hasKey_append]; simp [h])

/-- A key absent from the incoming map keeps its exact binding through
the merge loop, whether or not the loop completes. -/
theorem mergeFieldsLoop_lookup_frame {E : Type} (me : E → E → Option E)
    (toAdd old : List (String × E)) (k : String)
    (h : k ∉ toAdd.map Prod.fst) :
    lookupKey (mergeFieldsLoop me toAdd old).1 k = lookupKey old k := by
  induction toAdd generalizing old with
  | nil => rfl
  | cons p rest ih =>
    obtain ⟨k0, v0⟩ := p
    simp only [List.map_cons, List.mem_cons] at h
    push_neg at h
    simp only [mergeFieldsLoop]
    cases hl : lookupKey old k0 with
    | some w =>
      dsimp only
      cases hm : me w v0 with
      | some m =>
        dsimp only
        rw [ih (setField old k0 m) h.2, lookupKey_setField_ne old k0 k m h.1]
      | none => rfl
    | none =>
      dsimp only
      rw [ih (old ++ [(k0, v0)]) h.2, lookupKey_append]
      cases hk : lookupKey old k with
      | some v => rfl
      | none => simp [lookupKey, Ne.symm h.1]

/-- Claim C3 (amended): a merge failure is caught and the run continues
(the orchestrator's merge step is total), and the failed step preserves
every key already in the global map and leaves every field outside the
incoming map bound exactly as before — but, as the counterexample
shows, incoming fields processed before the failing entry are already
inserted or merged in place, so the global map is not in general
exactly its prior value. -/
theorem c3_amended_merge_frame {E : Type} (me : E → E → Option E)
    (toAdd old : List (String × E)) (k : String) :
    (hasKey old k = true → hasKey (orchestratorMergeStep me toAdd old) k = true)
  ∧ (k ∉ toAdd.map Prod.fst →
      lookupKey (orchestratorMergeStep me toAdd old) k = lookupKey old k) := by
  unfold orchestratorMergeStep merge_schema_maps
  by_cases he : old.isEmpty
  · have : old = [] := by
      cases old with
      | nil => rfl
      | cons p r => simp [List.isEmpty] at he
    subst this
    constructor
    · intro h
      simp [hasKey, lookupKey] at h
    · intro h
      simp only [he, if_true]
      exact lookupKey_eq_none_of_not_mem_keys toAdd k h
  · rw [if_neg he]
    exact ⟨mergeFieldsLoop_hasKey_mono me toAdd old k,
           mergeFieldsLoop_lookup_frame me toAdd old k⟩

/-- Witness for the amended C3: in the failing merge of the C3
counterexample extended with a field `"z"` on the global side, `"z"`
survives with its prior binding even though the entry merge for `"a"`
raised. -/
theorem c3_amended_merge_frame_witness :
    hasKey (orchestratorMergeStep entryMergeEx [("b", 5), ("a", 1)]
        [("a", 0), ("z", 7)]) "z" = true
  ∧ lookupKey (orchestratorMergeStep entryMergeEx [("b", 5), ("a", 1)]
        [("a", 0), ("z", 7)]) "z" = lookupKey [("a", (0 : Int)), ("z", 7)] "z" :=
  ⟨(c3_amended_merge_frame entryMergeEx [("b", 5), ("a", 1)] [("a", 0), ("z", 7)] "z").1 rfl,
   (c3_amended_merge_frame entryMergeEx [("b", 5), ("a", 1)] [("a", 0), ("z", 7)] "z").2
     (by decide)⟩

/-- Pointwise combination of two optional schema entries: absent/absent
is absent, one-sided presence keeps the entry, double presence
reconciles with the entry-merge primitive (old entry first). -/
def mergeOpt {E : Type} (me : E → E → E) : Option E → Option E → Option E
  | none, none => none
  | some w, none => some w
  | none, some v => some v
  | some w, some v => some (me w v)

/-- Pointwise characterisation of the merge loop under a total
entry-merge primitive: the binding of any key in the merged map is the
`mergeOpt` of its bindings in the two operands (requires the incoming
map to have duplicate-free keys, as an `OrderedDict` does). -/
theorem mergeFieldsLoop_lookup_total {E : Type} (me : E → E → E)
    (toAdd old : List (String × E)) (k : String)
    (hnd : (toAdd.map Prod.fst).Nodup) :
    lookupKey (mergeFieldsLoop (fun a b => some (me a b)) toAdd old).1 k
      = mergeOpt me (lookupKey old k) (lookupKey toAdd k) := by
  induction toAdd generalizing old with
  | nil =>
    cases hx : lookupKey old k <;> simp [mergeFieldsLoop, lookupKey, mergeOpt, hx]
  | cons p rest ih =>
    obtain ⟨k0, v0⟩ := p
    simp only [List.map_cons, List.nodup_cons] at hnd
    simp only [mergeFieldsLoop]
    cases hl : lookupKey old k0 with
    | some w =>
      dsimp only
      rw [ih (setField old k0 (me w v0)) hnd.2]
      by_cases hk : k = k0
      · subst hk
        rw [lookupKey_setField_self,
          lookupKey_eq_none_of_not_mem_keys rest k hnd.1, hl]
        simp [lookupKey, mergeOpt]
      · rw [lookupKey_setField_ne old k0 k (me w v0) hk]
        simp [lookupKey, Ne.symm hk]
    | none =>
      dsimp only
      rw [ih (old ++ [(k0, v0)]) hnd.2, lookupKey_append]
      by_cases hk : k = k0
      · subst hk
        rw [hl, lookupKey_eq_none_of_not_mem_keys rest k hnd.1]
        simp [lookupKey, mergeOpt]
      · cases hx : lookupKey old k <;>
          simp [lookupKey, Ne.symm hk, mergeOpt, hx]

/-- Pointwise characterisation of `merge_schema_maps` on the success
path: uniform over the empty-old special case (copy of the incoming
map). -/
theorem lookup_mergeSchemaMapsT {E : Type} (me : E → E → E)
    (toAdd old : List (String × E)) (k : String)
    (hnd : (toAdd.map Prod.fst).Nodup) :
    lookupKey (mergeSchemaMapsT me toAdd old) k
      = mergeOpt me (lookupKey old k) (lookupKey toAdd k) := by
  unfold mergeSchemaMapsT merge_schema_maps
  by_cases he : old.isEmpty
  · have : old = [] := by
      cases old with
      | nil => rfl
      | cons p r => simp [List.isEmpty] at he
    subst this
    rw [if_pos he]
    cases hx : lookupKey toAdd k <;> simp [lookupKey, mergeOpt, hx]
  · rw [if_neg he]
    exact mergeFieldsLoop_lookup_total me toAdd old k hnd

/-- The key set of a successful merge is the union of the operands' key
sets. -/
theorem hasKey_mergeSchemaMapsT {E : Type} (me : E → E → E)
    (toAdd old : List (String × E)) (k : String)
    (hnd : (toAdd.map Prod.fst).Nodup) :
    hasKey (mergeSchemaMapsT me toAdd old) k = (hasKey old k || hasKey toAdd k) := by
  rw [hasKey, lookup_mergeSchemaMapsT me toAdd old k hnd]
  cases hx : lookupKey old k <;> cases hy : lookupKey toAdd k <;>
    simp [mergeOpt, hasKey, hx, hy]

/-- Claim C4: with merge of an empty old map defined as a copy of the
incoming map, the top-level field set of `merge_schema_maps` is the
union of the operands' field sets; consequently, when the delegated
entry-merge primitive is commutative and associative, the merged map is
field-for-field independent of the merge order:
`merge(merge(A,B),C)` and `merge(merge(B,C),A)` agree on every field
(spec `merge(old, incoming)` is `mergeSchemaMapsT me incoming old`).
Duplicate-free key lists model `OrderedDict` maps. -/
theorem c4_merge_assoc_comm {E : Type} (me : E → E → E)
    (hc : ∀ a b, me a b = me b a)
    (ha : ∀ a b c, me (me a b) c = me a (me b c))
    (A B C : List (String × E))
    (hA : (A.map Prod.fst).Nodup) (hB : (B.map Prod.fst).Nodup)
    (hC : (C.map Prod.fst).Nodup) (k : String) :
    hasKey (mergeSchemaMapsT me C (mergeSchemaMapsT me B A)) k
        = (hasKey A k || hasKey B k || hasKey C k)
  ∧ lookupKey (mergeSchemaMapsT me C (mergeSchemaMapsT me B A)) k
      = lookupKey (mergeSchemaMapsT me A (mergeSchemaMapsT me C B)) k := by
  have hlc : ∀ a b c, me a (me b c) = me b (me a c) := by
    intro a b c
    rw [← ha, hc a b, ha]
  constructor
  · rw [hasKey_mergeSchemaMapsT me C _ k hC, hasKey_mergeSchemaMapsT me B A k hB]
  · rw [lookup_mergeSchemaMapsT me C _ k hC, lookup_mergeSchemaMapsT me B A k hB,
      lookup_mergeSchemaMapsT me A _ k hA, lookup_mergeSchemaMapsT me C B k hC]
    cases lookupKey A k <;> cases lookupKey B k <;> cases lookupKey C k <;>
      simp [mergeOpt, ha, hc, hlc]

/-- Witness for C4: integer entries merged with `max` (commutative and
associative), three concrete duplicate-free maps, probed at the shared
field `"a"`. -/
theorem c4_merge_assoc_comm_witness :
    hasKey (mergeSchemaMapsT Nat.max [("c", 3)]
        (mergeSchemaMapsT Nat.max [("a", 2), ("b", 9)] [("a", 5)])) "a"
        = (hasKey [("a", (5 : Nat))] "a" || hasKey [("a", (2 : Nat)), ("b", 9)] "a"
            || hasKey [("c", (3 : Nat))] "a")
  ∧ lookupKey (mergeSchemaMapsT Nat.max [("c", 3)]
        (mergeSchemaMapsT Nat.max [("a", 2), ("b", 9)] [("a", 5)])) "a"
      = lookupKey (mergeSchemaMapsT Nat.max [("a", 5)]
          (mergeSchemaMapsT Nat.max [("c", 3)] [("a", 2), ("b", 9)])) "a" :=
  c4_merge_assoc_comm Nat.max (fun a b => Nat.max_comm a b)
    (fun a b c => Nat.max_assoc a b c) [("a", 5)] [("a", 2), ("b", 9)] [("c", 3)]
    (by decide) (by decide) (by decide) "a"

/-- When every filter evaluates without raising, the comprehension
returns the list of individual outcomes. -/
theorem evalFilters_ok (r : Obj) (fs : List FilterSpec)
    (h : ∀ f ∈ fs, filterEvalOk r f = true) :
    evalFilters r fs = .ok (fs.map (filterPasses r)) := by
  induction fs with
  | nil => rfl
  | cons f rest ih =>
    have hf := h f (by simp)
    cases he : evalFilterSpec r f with
    | error e => simp [filterEvalOk, he] at hf
    | ok b =>
      simp [evalFilters, he, ih (fun g hg => h g (List.mem_cons_of_mem f hg)),
        filterPasses]

/-- `False in [...]` on the mapped outcomes is the negated
conjunction. -/
theorem any_not_map_all {α : Type} (g : α → Bool) (l : List α) :
    (l.map g).any (fun b => !b) = !l.all g := by
  induction l with
  | nil => rfl
  | cons x xs ih => simp [ih, Bool.not_and]

/-- The conjunction law of `transform`: with configured filters that
all evaluate without raising and no cleaners, a record is written iff
every filter passes; discarded records contribute no write, no line
count and no schema update. -/
theorem transform_filter_conj {S : Type} (upd : S → Obj → Option S)
    (fs : List FilterSpec) (records : List Obj) (s0 : S)
    (h : ∀ r ∈ records, ∀ f ∈ fs, filterEvalOk r f = true) :
    transform upd (some fs) none s0 records
      = .ok (records.filter (fun r => fs.all (filterPasses r)),
             (records.filter (fun r => fs.all (filterPasses r))).foldl
               (fun s r => (upd s r).getD s) s0,
             (records.filter (fun r => fs.all (filterPasses r))).length) := by
  induction records generalizing s0 with
  | nil => rfl
  | cons r rest ih =>
    have hr : ∀ f ∈ fs, filterEvalOk r f = true := fun f hf => h r (by simp) f hf
    have hrest : ∀ r' ∈ rest, ∀ f ∈ fs, filterEvalOk r' f = true :=
      fun r' hr' f hf => h r' (by simp [hr']) f hf
    have hd : (if fs.isEmpty then (.ok false : Except PyErr Bool)
               else match evalFilters r fs with
                    | .error e => .error e
                    | .ok results => .ok (results.any (fun b => !b)))
        = .ok (!(fs.all (filterPasses r))) := by
      cases fs with
      | nil => rfl
      | cons f0 fs' =>
        rw [if_neg (by simp), evalFilters_ok r _ hr]
        dsimp only
        rw [any_not_map_all]
    simp only [transform]
    rw [hd]
    cases hall : fs.all (filterPasses r) with
    | true =>
      simp only [Bool.not_true]
      rw [ih ((upd s0 r).getD s0) hrest]
      simp [List.filter_cons, hall]
    | false =>
      simp only [Bool.not_false]
      rw [ih s0 hrest]
      simp [List.filter_cons, hall]

/-- Claim C7 (amended): for resolving paths the per-filter outcome is
`raw test == desired_test_result`, with the raw test being membership
for a list-valued `value` and **Python** equality otherwise — Python
`==`, which equates booleans with the integers `0`/`1` (the
counterexample), though it performs no string/number coercion; a
missing `desired_test_result` config key defaults to true; and
`transform` writes a record iff every configured filter returns true,
discarding failing records with no cleaning, no write and no schema
update. -/
theorem c7_amended_filter_transform :
    (∀ (obj : Obj) (path : List String) (kvs : Obj) (field : String)
        (value : JSON) (d : Bool),
        target_from_path obj path = .ok (some (JSON.obj kvs, field)) →
        filter_single_record obj path value d =
          .ok ((match value with
                | JSON.arr vs =>
                    vs.any (fun v => pyEq ((lookupKey kvs field).getD JSON.null) v)
                | _ => pyEq ((lookupKey kvs field).getD JSON.null) value) == d))
  ∧ (∀ (obj : Obj) (p : List String) (v : JSON),
        evalFilterSpec obj ⟨p, v, none⟩ = filter_single_record obj p v true)
  ∧ (∀ (S : Type) (upd : S → Obj → Option S) (fs : List FilterSpec)
        (records : List Obj) (s0 : S),
        (∀ r ∈ records, ∀ f ∈ fs, filterEvalOk r f = true) →
        transform upd (some fs) none s0 records
          = .ok (records.filter (fun r => fs.all (filterPasses r)),
                 (records.filter (fun r => fs.all (filterPasses r))).foldl
                   (fun s r => (upd s r).getD s) s0,
                 (records.filter (fun r => fs.all (filterPasses r))).length)) := by
  refine ⟨?_, ?_, ?_⟩
  · intro obj path kvs field value d h
    simp [filter_single_record, h]
  · intro obj p v
    rfl
  · intro S upd fs records s0 h
    exact transform_filter_conj upd fs records s0 h

/-- Witness for the amended C7, on the spec's end-to-end scenario: three
records `{"type":"A","v":1}`, `{"type":"B","v":2}`, `{"type":"A","v":null}`
filtered by `{path:"type", value:"A"}` with a record-counting schema
state — exactly the two `type=A` records are written and counted. -/
theorem c7_amended_filter_transform_witness :
    filter_single_record [("type", JSON.str "B")] ["type"] (JSON.str "A") true
        = .ok false
  ∧ evalFilterSpec [] ⟨["p"], JSON.null, none⟩
        = filter_single_record [] ["p"] JSON.null true
  ∧ transform (fun (s : Nat) _ => some (s + 1))
        (some [⟨["type"], JSON.str "A", none⟩]) none 0
        [[("type", JSON.str "A"), ("v", JSON.num 1)],
         [("type", JSON.str "B"), ("v", JSON.num 2)],
         [("type", JSON.str "A"), ("v", JSON.null)]]
      = .ok ([[("type", JSON.str "A"), ("v", JSON.num 1)],
              [("type", JSON.str "A"), ("v", JSON.null)]], 2, 2) :=
  ⟨c7_amended_filter_transform.1 [("type", JSON.str "B")] ["type"]
      [("type", JSON.str "B")] "type" (JSON.str "A") true rfl,
   c7_amended_filter_transform.2.1 [] ["p"] JSON.null,
   c7_amended_filter_transform.2.2 Nat (fun s _ => some (s + 1))
     [⟨["type"], JSON.str "A", none⟩]
     [[("type", JSON.str "A"), ("v", JSON.num 1)],
      [("type", JSON.str "B"), ("v", JSON.num 2)],
      [("type", JSON.str "A"), ("v", JSON.null)]] 0
     (by intro r hr f hf
         fin_cases hr <;> fin_cases hf <;> rfl)⟩

/-- A list is a prefix (in the Boolean sense) of itself followed by
anything. -/
theorem isPrefixOf_append_self (l t : List Char) : l.isPrefixOf (l ++ t) = true := by
  induction l with
  | nil => simp [List.isPrefixOf]
  | cons c cs ih => simp [List.isPrefixOf, ih]

/-- Scanning `pre ++ pat` when no occurrence of `pat` starts inside
`pre`: the scan copies `pre`, then replaces the trailing `pat`. -/
theorem pyReplaceAux_trailing (pat new : List Char) (hp : pat ≠ []) :
    ∀ (pre : List Char) (fuel : Nat), earlyHitFree pre pat = true →
      pre.length + pat.length ≤ fuel →
      pyReplaceAux pat new fuel (pre ++ pat) = pre ++ new := by
  intro pre
  induction pre with
  | nil =>
    intro fuel hfree hfuel
    match pat, hp with
    | c :: rest, _ =>
      cases fuel with
      | zero => simp only [List.length_nil, List.length_cons] at hfuel; omega
      | succ f =>
        have hpre : (c :: rest).isPrefixOf (c :: rest) = true := by
          have h := isPrefixOf_append_self (c :: rest) []
          rwa [List.append_nil] at h
        simp [pyReplaceAux, hpre, List.drop_length]
  | cons c pre' ih =>
    intro fuel hfree hfuel
    rw [earlyHitFree] at hfree
    simp only [Bool.and_eq_true] at hfree
    obtain ⟨h1, h2⟩ := hfree
    cases fuel with
    | zero => simp only [List.length_cons] at hfuel; omega
    | succ f =>
      have hne : pat.isPrefixOf ((c :: pre') ++ pat) = false := by
        simpa using h1
      show pyReplaceAux pat new (f + 1) (c :: (pre' ++ pat)) = c :: (pre' ++ new)
      rw [pyReplaceAux]
      rw [if_neg (by simp [show pat.isPrefixOf (c :: (pre' ++ pat)) = false from hne])]
      have hfuel' : pre'.length + pat.length ≤ f := by
        simp only [List.length_cons] at hfuel
        omega
      rw [ih f h2 hfuel']

/-- Claim C9 (amended): the output path is
`str(output_folder / relative_path).replace(file_suffix, ".jsonl")`,
which rewrites **every** occurrence of the suffix in the joined path.
When the suffix occurs in the joined path only as its trailing suffix
(the `earlyHitFree` side-condition), this equals the claim: the
relative path is rebased under the output folder with the suffix
replaced by `.jsonl` and nothing else altered. -/
theorem c9_amended_output_path (outputFolder stem suffix : String)
    (hs : suffix.data ≠ [])
    (hfree : earlyHitFree (outputFolder ++ "/" ++ stem).data suffix.data = true) :
    computeOutputPath outputFolder (stem ++ suffix) suffix
      = outputFolder ++ "/" ++ stem ++ ".jsonl" := by
  unfold computeOutputPath pyReplace
  rw [if_neg (by simpa using hs)]
  apply String.ext
  show pyReplaceAux suffix.data ".jsonl".data
      (outputFolder ++ "/" ++ (stem ++ suffix)).data.length
      (outputFolder ++ "/" ++ (stem ++ suffix)).data
    = (outputFolder ++ "/" ++ stem ++ ".jsonl").data
  have hdata : (outputFolder ++ "/" ++ (stem ++ suffix)).data
      = (outputFolder ++ "/" ++ stem).data ++ suffix.data := by
    simp [String.data_append]
  have hdata2 : (outputFolder ++ "/" ++ stem ++ ".jsonl").data
      = (outputFolder ++ "/" ++ stem).data ++ ".jsonl".data := by
    simp [String.data_append]
  rw [hdata, hdata2]
  exact pyReplaceAux_trailing suffix.data ".jsonl".data hs
    (outputFolder ++ "/" ++ stem).data _ hfree (by simp; omega)

/-- Witness for the amended C9: rebasing `sub/a.jsonl.gz` from the input
tree under `/out` with the default suffix. -/
theorem c9_amended_output_path_witness :
    computeOutputPath "/out" ("sub/a" ++ ".jsonl.gz") ".jsonl.gz"
      = "/out" ++ "/" ++ "sub/a" ++ ".jsonl" :=
  c9_amended_output_path "/out" "sub/a" ".jsonl.gz" (by decide) (by decide)

end SchemaWash
